import Mathlib

/-!
Verification of the FileRipper PFTE (Pulsar File Transfer Engine) core.

Shallow embedding of `internal/pfte` (transfer.go, queue.go, engine.go,
plr.go).  Go machine integers (int64 sizes, counters) are modelled as
`Nat`/`Int` — all quantities involved are far below 2^63 so overflow never
occurs; Go's integer division on non-negative operands coincides with
`Nat` division.  Wall-clock time and float64 arithmetic of the monitor are
modelled over `ℚ` (exact), stateful methods as explicit state passing, and
external effects (SFTP transport, local filesystem) as oracle parameters.
-/

/-! ### Constants (transfer.go lines 31-35, engine.go) -/

namespace FileRipper

/-- 64 KiB buffer for standard streams (transfer.go `BufferSize`). -/
def BufferSize : Nat := 64 * 1024

/-- 10 MiB multipart threshold (transfer.go `MultipartThreshold`). -/
def MultipartThreshold : Nat := 10 * 1024 * 1024

/-- Fixed 16-way multipart split (transfer.go `MultipartChunks`). -/
def MultipartChunks : Nat := 16

/-! ### Multipart byte-range split (transfer.go `uploadMultipart`, lines 177-199)

The Go code computes `chunkSize := size / int64(MultipartChunks)` and for
worker `i` sets `start := int64(i) * chunkSize`, `end := start + chunkSize`,
overriding `end = size` for the last worker (`i == MultipartChunks-1`).
The goroutine receives `(offset, length) = (start, end-start)` and streams
exactly `length` bytes from `offset` (`io.LimitReader(localFile, length)`).
-/

/-- Start offset of multipart chunk `i` for a file of `size` bytes:
`int64(i) * (size / 16)` from the Go loop. -/
def chunkStart (size i : Nat) : Nat := i * (size / MultipartChunks)

/-- End offset (exclusive) of multipart chunk `i`: `start + chunkSize`,
except the last chunk, whose end is overridden to `size`. -/
def chunkEnd (size i : Nat) : Nat :=
  if i = MultipartChunks - 1 then size
  else chunkStart size i + size / MultipartChunks

/-- Byte length streamed by chunk `i` (`end - start` in the Go code). -/
def chunkLen (size i : Nat) : Nat := chunkEnd size i - chunkStart size i

/-! ### Job queue (queue.go) -/

/-- queue.go `TransferJob`: one unit of work. -/
structure TransferJob where
  localPath : String
  remotePath : String
  operation : String
deriving DecidableEq, Repr

/-- queue.go `JobQueue`: the job slice; the Go mutex serialises all access,
so the sequential model is the observable behaviour. -/
structure JobQueue where
  jobs : List TransferJob
deriving DecidableEq, Repr

/-- queue.go `NewQueue`. -/
def NewQueue : JobQueue := ⟨[]⟩

/-- queue.go `Add`: append at the tail. -/
def JobQueue.Add (q : JobQueue) (j : TransferJob) : JobQueue :=
  ⟨q.jobs ++ [j]⟩

/-- queue.go `Pop`: remove and return the head, or `none` (Go `nil`) when
empty ("classic queue shifting"). -/
def JobQueue.Pop (q : JobQueue) : Option TransferJob × JobQueue :=
  match q.jobs with
  | [] => (none, q)
  | j :: rest => (some j, ⟨rest⟩)

/-- queue.go `Count`: remaining jobs. -/
def JobQueue.Count (q : JobQueue) : Nat := q.jobs.length

/-- One client-visible queue operation (single producer/consumer history). -/
inductive QOp where
  | add (j : TransferJob)
  | pop
deriving DecidableEq, Repr

/-- History bookkeeping: the live queue plus the logs of jobs added and of
jobs returned by successful pops, in order. -/
structure QTrace where
  queue : JobQueue
  added : List TransferJob
  popped : List TransferJob
deriving DecidableEq, Repr

/-- Apply one operation to a queue history.  A `Pop` on an empty queue
returns the `nil` sentinel and logs nothing. -/
def qstep (t : QTrace) : QOp → QTrace
  | .add j => ⟨t.queue.Add j, t.added ++ [j], t.popped⟩
  | .pop =>
    match t.queue.Pop with
    | (none, q') => ⟨q', t.added, t.popped⟩
    | (some j, q') => ⟨q', t.added, t.popped ++ [j]⟩

/-- Run a whole operation sequence from the empty queue. -/
def qrun (ops : List QOp) : QTrace :=
  ops.foldl qstep ⟨NewQueue, [], []⟩

/-- Drain by repeated `Pop` until the `nil` sentinel, collecting the
returned jobs in order; the fuel bounds the number of `Pop` calls. -/
def drainLoop : Nat → JobQueue → List TransferJob
  | 0, _ => []
  | fuel + 1, q =>
    match q.Pop with
    | (none, _) => []
    | (some j, q') => j :: drainLoop fuel q'

/-- Repeated `Pop` until the `nil` sentinel (`Count` many pops always
reach the sentinel, by `drainPops_eq`). -/
def drainPops (q : JobQueue) : List TransferJob := drainLoop q.Count q

/-! ### Single-stream transfer with retry
(transfer.go `DownloadFileWithProgress` lines 61-102 and
`uploadSingleStream` lines 129-174)

Both functions run the same loop `for attempt := 1; attempt <= 3;
attempt++`, re-doing the whole transfer each time: open the source, create
(truncate) the destination, stream every byte; the download returns `nil`
as soon as an attempt succeeds, the upload `break`s — observably identical.
After the loop the last attempt's error is returned.  The transport and
filesystem are modelled by an oracle giving each attempt's outcome; file
contents are byte lists. -/

/-- Outcome of one attempt body: failure opening the source, failure
creating the destination, failure mid-copy (destination truncated, then
left holding whatever fragment was written), or success. -/
inductive AttemptOutcome where
  | openFail (e : Nat)
  | createFail (e : Nat)
  | copyFail (e : Nat) (written : List Nat)
  | success
deriving DecidableEq, Repr

/-- The error an outcome reports, if any. -/
def AttemptOutcome.errOf : AttemptOutcome → Option Nat
  | .openFail e => some e
  | .createFail e => some e
  | .copyFail e _ => some e
  | .success => none

/-- One attempt body: its effect on the destination (`none` = never
created) and the error it returns.  `Create` truncates, so a mid-copy
failure leaves the written fragment and a success leaves exactly the
source bytes, regardless of the previous destination contents. -/
def singleStreamAttempt (source : List Nat) (out : AttemptOutcome)
    (dst : Option (List Nat)) : Option (List Nat) × Option Nat :=
  match out with
  | .openFail e => (dst, some e)
  | .createFail e => (dst, some e)
  | .copyFail _ written => (some written, (out.errOf))
  | .success => (some source, none)

/-- The retry loop, structurally recursive on the remaining attempt budget
(`rem`); `attempt` is the Go loop counter.  Returns the final error
(`none` = success), the destination state, and the list of attempt numbers
actually performed. -/
def singleStreamGo (source : List Nat) (oracle : Nat → AttemptOutcome) :
    Nat → Nat → Option (List Nat) → Option Nat →
    Option Nat × Option (List Nat) × List Nat
  | 0, _, dst, lastErr => (lastErr, dst, [])
  | rem + 1, attempt, dst, _ =>
    match singleStreamAttempt source (oracle attempt) dst with
    | (dst', none) => (none, dst', [attempt])
    | (dst', some e) =>
      let r := singleStreamGo source oracle rem (attempt + 1) dst' (some e)
      (r.1, r.2.1, attempt :: r.2.2)

/-- The common 3-attempt body of both single-stream transfer functions. -/
def singleStreamRetry (source : List Nat) (oracle : Nat → AttemptOutcome) :
    Option Nat × Option (List Nat) × List Nat :=
  singleStreamGo source oracle 3 1 none none

/-- transfer.go `DownloadFileWithProgress` (metadata best-effort sync
abstracted away: its errors are ignored by the code). -/
def DownloadFileWithProgress (source : List Nat)
    (oracle : Nat → AttemptOutcome) :
    Option Nat × Option (List Nat) × List Nat :=
  singleStreamRetry source oracle

/-- transfer.go `uploadSingleStream` (same loop; Chtimes/Chmod best-effort
sync abstracted away). -/
def uploadSingleStream (source : List Nat)
    (oracle : Nat → AttemptOutcome) :
    Option Nat × Option (List Nat) × List Nat :=
  singleStreamRetry source oracle

/-! ### Multipart upload and the upload decision
(transfer.go `UploadFileWithProgress` lines 104-126 and `uploadMultipart`
lines 176-288)

`uploadMultipart`: one `Create` truncates the destination, then the 16
sub-workers run, each streaming exactly its `chunkStart`/`chunkEnd` range
(geometry proved separately); any sub-worker error lands in `errChan` and,
after `wg.Wait()`, a non-empty channel makes the function return one of the
errors.  The transport is an oracle giving the `Create` error and each
sub-worker's error, if any. -/

structure MultipartOracle where
  createErr : Option Nat
  chunkErr : Nat → Option Nat

/-- transfer.go `uploadMultipart`: returns the reported error (`none` =
success) and the list of chunk indices actually launched.  If `Create`
fails, no sub-worker is launched; otherwise all 16 launch, each exactly
once, and the whole attempt fails if any of them failed. -/
def uploadMultipart (size : Nat) (mo : MultipartOracle) :
    Option Nat × List Nat :=
  match mo.createErr with
  | some e => (some e, [])
  | none =>
    match (List.range MultipartChunks).filterMap mo.chunkErr with
    | [] => (none, List.range MultipartChunks)
    | e :: _ => (some e, List.range MultipartChunks)

/-- Which paths an upload took. -/
structure UploadTrace where
  multipartTried : Bool
  chunksLaunched : List Nat
  singleAttempts : List Nat
deriving DecidableEq, Repr

/-- transfer.go `UploadFileWithProgress`: stat the local file; at or above
the 10 MiB threshold try `uploadMultipart` and return on its success; on
its failure fall back silently (the multipart error is discarded) to
`uploadSingleStream`; below the threshold go straight to
`uploadSingleStream`.  Returns (error, destination, trace). -/
def UploadFileWithProgress (statResult : Except Nat Nat)
    (mo : MultipartOracle) (source : List Nat)
    (oracle : Nat → AttemptOutcome) :
    Option Nat × Option (List Nat) × UploadTrace :=
  match statResult with
  | .error e => (some e, none, ⟨false, [], []⟩)
  | .ok fileSize =>
    if MultipartThreshold ≤ fileSize then
      match uploadMultipart fileSize mo with
      | (none, chunks) => (none, some source, ⟨true, chunks, []⟩)
      | (some _, chunks) =>
        let r := uploadSingleStream source oracle
        (r.1, r.2.1, ⟨true, chunks, r.2.2⟩)
    else
      let r := uploadSingleStream source oracle
      (r.1, r.2.1, ⟨false, [], r.2.2⟩)

/-! ### Progress monitor (plr.go lines 274-395)

Atomic counters and the mutex-guarded fields are modelled as plain fields:
every method's whole effect is one state transition.  `time.Now()` is an
explicit `now : ℚ` argument (seconds); float64 arithmetic is modelled
exactly over `ℚ`. -/

/-- plr.go `TransferStats`: the read-only snapshot struct. -/
structure TransferStats where
  TotalFiles : Int
  FilesDone : Int
  TotalBytes : Int
  BytesDone : Int
  ProgressPercent : ℚ
  SpeedMBs : ℚ
  CurrentFile : String
  IsRunning : Bool
deriving DecidableEq, Repr

/-- plr.go `TransferMonitor`. -/
structure TransferMonitor where
  totalFiles : Int
  filesDone : Int
  totalBytes : Int
  bytesDone : Int
  currentFile : String
  isRunning : Bool
  lastBytes : Int
  lastCheck : ℚ
  currentSpeed : ℚ
deriving DecidableEq, Repr

/-- plr.go `NewMonitor`. -/
def NewMonitor (now : ℚ) : TransferMonitor :=
  { totalFiles := 0, filesDone := 0, totalBytes := 0, bytesDone := 0,
    currentFile := "", isRunning := false, lastBytes := 0,
    lastCheck := now, currentSpeed := 0 }

/-- plr.go `Reset` (lines 322-337): assigns every field — zeroes the
counters, placeholder current file, running, fresh speed baseline. -/
def TransferMonitor.Reset (_ : TransferMonitor)
    (totalFiles totalBytes : Int) (now : ℚ) : TransferMonitor :=
  { totalFiles := totalFiles, totalBytes := totalBytes,
    filesDone := 0, bytesDone := 0,
    currentFile := "Initializing...", isRunning := true,
    lastBytes := 0, lastCheck := now, currentSpeed := 0 }

/-- plr.go `AddBytes`. -/
def TransferMonitor.AddBytes (m : TransferMonitor) (n : Int) :
    TransferMonitor :=
  { m with bytesDone := m.bytesDone + n }

/-- plr.go `IncFileDone`. -/
def TransferMonitor.IncFileDone (m : TransferMonitor) : TransferMonitor :=
  { m with filesDone := m.filesDone + 1 }

/-- plr.go `SetCurrentFile`. -/
def TransferMonitor.SetCurrentFile (m : TransferMonitor) (name : String) :
    TransferMonitor :=
  { m with currentFile := name }

/-- plr.go `SetRunning`. -/
def TransferMonitor.SetRunning (m : TransferMonitor) (running : Bool) :
    TransferMonitor :=
  { m with isRunning := running }

/-- plr.go `GetStats` (lines 361-394): recompute the instantaneous speed
only when at least 0.5 s elapsed since the last sample (moving the
baseline), guard the percent division on `totalBytes > 0`, and return the
snapshot together with the updated monitor. -/
def TransferMonitor.GetStats (m : TransferMonitor) (now : ℚ) :
    TransferStats × TransferMonitor :=
  let bytesNow := m.bytesDone
  let totalBytes := m.totalBytes
  let duration := now - m.lastCheck
  let m' :=
    if (1 : ℚ) / 2 ≤ duration then
      { m with
        currentSpeed :=
          (((bytesNow - m.lastBytes : Int) : ℚ) / 1024 / 1024) / duration,
        lastBytes := bytesNow, lastCheck := now }
    else m
  let percent : ℚ :=
    if 0 < totalBytes then ((bytesNow : ℚ) / (totalBytes : ℚ)) * 100 else 0
  (⟨m.totalFiles, m.filesDone, totalBytes, bytesNow, percent,
    m'.currentSpeed, m.currentFile, m.isRunning⟩, m')

/-! ### Engine (engine.go, multi-session `StartTransfer` lines 257-373,
`startDownload` lines 376-466, `findRemotePath` lines 468-490)

String path helpers model Go's `path` package on already-clean,
slash-normalised inputs (the only inputs the engine produces). -/

/-- network.SftpSession: only whether its `SftpClient` is non-nil matters
to the engine's guard. -/
structure SftpSession where
  sftpClientInit : Bool
deriving DecidableEq, Repr

/-- Go strings.EqualFold, modelled as character-wise lowercase-folded
equality. -/
def equalFold (a b : String) : Bool :=
  a.data.map Char.toLower == b.data.map Char.toLower

/-- Go path.Join on clean segments: empty or "." segments join
transparently. -/
def pathJoin (a b : String) : String :=
  if a = "" then b
  else if a = "." then b
  else if b = "" then a
  else if b = "." then a
  else a ++ "/" ++ b

/-- Go path.Base on clean paths (no trailing slash): the last
slash-separated component; the empty path gives ".". -/
def pathBase (p : String) : String :=
  if p = "" then "."
  else String.mk ((p.data.reverse.takeWhile (· ≠ '/')).reverse)

/-- One remote directory entry as the deep search sees it: its name,
whether it is a directory, whether `ReadDir` on it succeeds, and its
children. -/
inductive RemoteEntry : Type where
  | mk (name : String) (isDir : Bool) (readable : Bool)
      (children : List RemoteEntry)

def RemoteEntry.name : RemoteEntry → String
  | .mk n _ _ _ => n

def RemoteEntry.isDir : RemoteEntry → Bool
  | .mk _ d _ _ => d

def RemoteEntry.readable : RemoteEntry → Bool
  | .mk _ _ r _ => r

def RemoteEntry.children : RemoteEntry → List RemoteEntry
  | .mk _ _ _ c => c

/-- The second loop of `findRemotePath`: descend (`recurse`, the one-level
-deeper search, closed over the target name) into each directory entry in
order; the first non-empty result wins. -/
def searchSubdirs (recurse : String → Bool → List RemoteEntry → String)
    (root : String) : List RemoteEntry → String
  | [] => ""
  | .mk n dir r cs :: rest =>
    if dir then
      let found := recurse (pathJoin root n) r cs
      if found ≠ "" then found
      else searchSubdirs recurse root rest
    else searchSubdirs recurse root rest

/-- engine.go `findRemotePath` over the listing of `root`.  `fuel` is the
Go `maxDepth` budget of further descents: the Go code returns "" when
`maxDepth < 0`, scans the listing for a case-insensitive name match, and
recurses into subdirectories with `maxDepth-1` — so a call at budget 0
still scans its own listing but descends no further (`findRemotePathGo`
packages the `maxDepth < 0` guard).  `readable = false` models the Go
`ReadDir` error path, returning "". -/
def findRemotePath (fuel : Nat) (root : String) (readable : Bool)
    (entries : List RemoteEntry) (targetName : String) : String :=
  if readable = false then ""
  else
    match entries.find? (fun f => equalFold f.name targetName) with
    | some f => pathJoin root f.name
    | none =>
      match fuel with
      | 0 => ""
      | d + 1 =>
        searchSubdirs (fun rt rd cs => findRemotePath d rt rd cs targetName)
          root entries

/-- engine.go `findRemotePath` with the Go-typed `maxDepth : Int` and its
`maxDepth < 0` guard. -/
def findRemotePathGo (root : String) (readable : Bool)
    (entries : List RemoteEntry) (targetName : String) (maxDepth : Int) :
    String :=
  if maxDepth < 0 then ""
  else findRemotePath maxDepth.toNat root readable entries targetName

/-- Cut a remote tree at depth `d`: entries more than `d` levels below
the root listing are removed (used to state that the deep search is
bounded: it never consults anything below its depth budget). -/
def truncEntries : Nat → List RemoteEntry → List RemoteEntry
  | _, [] => []
  | 0, _ :: _ => []
  | d + 1, .mk nm dir r cs :: rest =>
    .mk nm dir r (truncEntries d cs) :: truncEntries (d + 1) rest
termination_by d es => (d, sizeOf es)

/-- Truncate one entry: keep it, cut its children at depth `d`. -/
def truncEntry (d : Nat) : RemoteEntry → RemoteEntry
  | .mk nm dir r cs => .mk nm dir r (truncEntries d cs)

/-- What `Lstat` reports for an existing path. -/
structure LstatInfo where
  isDir : Bool
deriving DecidableEq, Repr

/-- The remote side as `startDownload` consults it: an `Lstat` oracle and
the working directory listing ("." — root of the deep search). -/
structure RemoteEnv where
  lstat : String → Except String LstatInfo
  wdReadable : Bool
  wdEntries : List RemoteEntry

/-- engine.go `startDownload` lines 385-413: resolve the requested remote
target.  `targetName` is the base name, blanked for ""/"." targets;
direct `Lstat` first; on failure with a non-blank name, deep search at
depth 3 under "."; a hit is substituted (and re-stat'd), a miss fails
with "target not found". -/
def resolveRemoteSource (renv : RemoteEnv) (targetPath : String) :
    Except String (String × LstatInfo) :=
  let targetName :=
    if targetPath = "" ∨ targetPath = "." then "" else pathBase targetPath
  let remoteSource := if targetPath = "" then "." else targetPath
  match renv.lstat remoteSource with
  | .ok info => .ok (remoteSource, info)
  | .error e =>
    if targetName ≠ "" then
      let foundPath :=
        findRemotePathGo "." renv.wdReadable renv.wdEntries targetName 3
      if foundPath ≠ "" then
        match renv.lstat foundPath with
        | .ok info => .ok (foundPath, info)
        | .error e2 => .error e2
      else .error "target not found"
    else .error e

/-- One entry of a filesystem walk as the engine's callbacks see it:
the entry's path, kind and size, whether the callback got an access
error (logged and skipped), and its path relative to the walk base
(Go `filepath.Rel`, an external primitive, so supplied by the
environment). -/
structure WalkEntry where
  path : String
  isDir : Bool
  size : Int
  errAccess : Bool
  relPath : String
deriving DecidableEq, Repr

/-- Observable engine-side state: the job queue, the monitor, the remote
and local directories created so far, and whether the worker pool was
launched. -/
structure EngineState where
  queue : JobQueue
  monitor : TransferMonitor
  remoteDirsCreated : List String
  localDirsCreated : List String
  poolLaunched : Bool
deriving DecidableEq, Repr

/-- External results `StartTransfer` consumes: `filepath.Abs`, the local
walk stream (an error aborts the walk), the remote side, the remote
walker stream for downloads, and the clock. -/
structure EngineEnv where
  absResult : Except String String
  walkEntries : Except String (List WalkEntry)
  remote : RemoteEnv
  remoteWalk : List WalkEntry
  now : ℚ

/-- engine.go lines 284-314, the upload scan fold: access errors are
skipped; a directory entry with a non-trivial relative path joins the
folder plan; a file entry becomes an UPLOAD job and adds its size. -/
def scanUpload (destPath : String) (entries : List WalkEntry) :
    List String × List TransferJob × Int :=
  entries.foldl
    (fun acc e =>
      let (folders, files, total) := acc
      if e.errAccess then (folders, files, total)
      else
        let finalRemotePath := pathJoin destPath e.relPath
        if e.isDir then
          if e.relPath ≠ "." ∧ e.relPath ≠ "" then
            (folders ++ [finalRemotePath], files, total)
          else (folders, files, total)
        else
          (folders, files ++ [⟨e.path, finalRemotePath, "UPLOAD"⟩],
           total + e.size))
    ([], [], 0)

/-- engine.go lines 319-321: `sort.Slice(foldersToCreate, ...)` with
comparator `len(i) < len(j)`, modelled as a merge sort on the same key —
any correct comparison sort produces a by-length-nondecreasing
permutation, which is all that is observable of the unstable Go sort. -/
def sortFolders (l : List String) : List String :=
  l.mergeSort (fun a b => a.length ≤ b.length)

/-- engine.go `startDownload` lines 376-466 after target resolution:
ensure the local "dump" root, resolve the remote source, then walk it —
erroring walker steps are skipped, directories are created locally at
once, files are queued as DOWNLOAD jobs (a single-file target lands
directly under the fallback root); finally the monitor is reset
(unconditionally) and the pool launches only if anything was queued. -/
def startDownload (env : EngineEnv) (st : EngineState)
    (targetPath : String) : Except String Unit × EngineState :=
  let st0 := { st with localDirsCreated :=
    if "dump" ∈ st.localDirsCreated then st.localDirsCreated
    else st.localDirsCreated ++ ["dump"] }
  match resolveRemoteSource env.remote targetPath with
  | .error e => (.error e, st0)
  | .ok (remoteSource, info) =>
    let rootDirName :=
      if remoteSource = "." ∨ remoteSource = "/" then "root_dump"
      else pathBase remoteSource
    let step := fun (acc : EngineState × Int × Int) (e : WalkEntry) =>
      let (s, queued, total) := acc
      if e.errAccess then (s, queued, total)
      else
        let localPath :=
          if info.isDir = false ∧ e.path = remoteSource then
            pathJoin "dump" rootDirName
          else pathJoin (pathJoin "dump" rootDirName) e.relPath
        if e.isDir then
          ({ s with localDirsCreated := s.localDirsCreated ++ [localPath] },
           queued, total)
        else
          ({ s with queue := s.queue.Add ⟨localPath, e.path, "DOWNLOAD"⟩ },
           queued + 1, total + e.size)
    let (st1, queued, total) := env.remoteWalk.foldl step (st0, 0, 0)
    let st2 := { st1 with monitor := st1.monitor.Reset queued total env.now }
    if 0 < queued then (.ok (), { st2 with poolLaunched := true })
    else (.ok (), st2)

/-- engine.go `StartTransfer` lines 257-373: guard on sessions, then the
upload pipeline (abs path, scan, sorted directory phase with swallowed
MkdirAll errors, zero-file no-op, queue + monitor reset + pool launch) or
the download path. -/
def StartTransfer (sessions : List SftpSession) (operation : String)
    (sourcePath destPath : String) (env : EngineEnv) (st : EngineState) :
    Except String Unit × EngineState :=
  match sessions with
  | [] => (.error "no_active_sessions", st)
  | s :: _ =>
    if s.sftpClientInit = false then (.error "no_active_sessions", st)
    else if operation = "UPLOAD" then
      match env.absResult with
      | .error e => (.error ("failed to get absolute path: " ++ e), st)
      | .ok _ =>
        match env.walkEntries with
        | .error e => (.error e, st)
        | .ok entries =>
          let (folders, files, totalBytes) := scanUpload destPath entries
          let sorted := sortFolders folders
          let st1 := { st with
            remoteDirsCreated := st.remoteDirsCreated ++ sorted }
          if files.length = 0 then (.ok (), st1)
          else
            let st2 := { st1 with
              queue := files.foldl JobQueue.Add st1.queue,
              monitor :=
                st1.monitor.Reset (files.length : Int) totalBytes env.now,
              poolLaunched := true }
            (.ok (), st2)
    else
      startDownload env st sourcePath

/-- Transport failing mid-copy on attempts 1 and 2, succeeding on 3. -/
def retryWitnessOracle : Nat → AttemptOutcome :=
  fun n => if n = 3 then .success else .copyFail n [9]

/-- Multipart oracle whose sub-worker 5 fails. -/
def uploadWitnessMO : MultipartOracle :=
  ⟨none, fun i => if i = 5 then some 99 else none⟩

/-- Upload single-stream oracle succeeding on attempt 1. -/
def uploadWitnessOracle : Nat → AttemptOutcome := fun _ => .success

/-- Remote environment for the C5 witness: the requested name does not
stat, but a case-insensitive match sits one directory down. -/
def searchWitnessEnv : RemoteEnv :=
  { lstat := fun p => if p = "sub/Data" then .ok ⟨false⟩ else .error "nf",
    wdReadable := true,
    wdEntries := [ .mk "a.txt" false true [],
                   .mk "sub" true true [ .mk "Data" false true [] ] ] }

/-- Q is the direct parent directory of P: P extends Q by exactly one
nonempty, slash-free component. -/
def isDirectParent (Q P : String) : Prop :=
  ∃ n, n ≠ "" ∧ '/' ∉ n.data ∧ P = Q ++ "/" ++ n

/-- Witness data for C7: a plan holding a child and its direct parent. -/
def dirPlanWitness : List String := ["acc/meta", "acc"]

/-- Witness environment for C8: a scan seeing the source root and one
subdirectory, no files. -/
def zeroFilesEnv : EngineEnv :=
  { absResult := .ok "/src",
    walkEntries := .ok
      [⟨"/src", true, 0, false, "."⟩, ⟨"/src/d", true, 0, false, "src/d"⟩],
    remote := ⟨fun _ => .error "nf", true, []⟩,
    remoteWalk := [],
    now := 0 }

/-- Witness state for C8. -/
def zeroFilesState : EngineState :=
  ⟨NewQueue, NewMonitor 0, [], [], false⟩

/-- Monitor with zero TotalBytes, for the guarded division of C10. -/
def percentWitnessMonitor : TransferMonitor :=
  { totalFiles := 1, filesDone := 0, totalBytes := 0, bytesDone := 0,
    currentFile := "x", isRunning := true, lastBytes := 0, lastCheck := 0,
    currentSpeed := 0 }

end FileRipper

namespace FileRipper

lemma drainLoop_eq (fuel : Nat) (l : List TransferJob) (hf : l.length ≤ fuel) :
    drainLoop fuel ⟨l⟩ = l := by
  induction fuel generalizing l with
  | zero =>
    have : l = [] := List.eq_nil_of_length_eq_zero (by omega)
    simp [this, drainLoop]
  | succ n ih =>
    cases l with
    | nil => rfl
    | cons j rest =>
      have hr : rest.length ≤ n := by simp at hf; omega
      simp only [drainLoop, JobQueue.Pop, ih rest hr]

lemma drainPops_eq (q : JobQueue) : drainPops q = q.jobs := by
  obtain ⟨l⟩ := q
  exact drainLoop_eq l.length l le_rfl

lemma qstep_inv (t : QTrace) (op : QOp)
    (h : t.popped ++ t.queue.jobs = t.added) :
    (qstep t op).popped ++ (qstep t op).queue.jobs = (qstep t op).added := by
  cases op with
  | add j => simp [qstep, JobQueue.Add, ← h]
  | pop =>
    obtain ⟨⟨l⟩, a, p⟩ := t
    cases l with
    | nil => simpa [qstep, JobQueue.Pop] using h
    | cons j rest => simpa [qstep, JobQueue.Pop] using h

lemma qrun_inv (ops : List QOp) :
    (qrun ops).popped ++ (qrun ops).queue.jobs = (qrun ops).added := by
  suffices H : ∀ t : QTrace, t.popped ++ t.queue.jobs = t.added →
      (ops.foldl qstep t).popped ++ (ops.foldl qstep t).queue.jobs
        = (ops.foldl qstep t).added by
    exact H ⟨NewQueue, [], []⟩ rfl
  induction ops with
  | nil => intro t h; simpa using h
  | cons op rest ih => intro t h; exact ih (qstep t op) (qstep_inv t op h)

lemma go_succ (source : List Nat) (oracle : Nat → AttemptOutcome)
    (rem attempt : Nat) (dst : Option (List Nat)) (le : Option Nat)
    (h : oracle attempt = .success) :
    singleStreamGo source oracle (rem + 1) attempt dst le
      = (none, some source, [attempt]) := by
  simp [singleStreamGo, h, singleStreamAttempt]

lemma go_fail (source : List Nat) (oracle : Nat → AttemptOutcome)
    (rem attempt : Nat) (dst : Option (List Nat)) (le : Option Nat)
    (e : Nat) (h : (oracle attempt).errOf = some e) :
    ∃ dst', singleStreamGo source oracle (rem + 1) attempt dst le
      = ((singleStreamGo source oracle rem (attempt + 1) dst' (some e)).1,
         (singleStreamGo source oracle rem (attempt + 1) dst' (some e)).2.1,
         attempt ::
           (singleStreamGo source oracle rem (attempt + 1) dst' (some e)).2.2) := by
  cases ho : oracle attempt with
  | openFail e0 =>
    rw [ho] at h
    simp only [AttemptOutcome.errOf, Option.some.injEq] at h
    exact ⟨dst, by simp [singleStreamGo, ho, singleStreamAttempt, h]⟩
  | createFail e0 =>
    rw [ho] at h
    simp only [AttemptOutcome.errOf, Option.some.injEq] at h
    exact ⟨dst, by simp [singleStreamGo, ho, singleStreamAttempt, h]⟩
  | copyFail e0 w =>
    rw [ho] at h
    simp only [AttemptOutcome.errOf, Option.some.injEq] at h
    exact ⟨some w, by simp [singleStreamGo, ho, singleStreamAttempt,
      AttemptOutcome.errOf, h]⟩
  | success => rw [ho] at h; simp [AttemptOutcome.errOf] at h

lemma range'_cons (a k : Nat) :
    List.range' a (k + 1) = a :: List.range' (a + 1) k := rfl

/-- The attempts performed are always `1, 2, ..., k` for some `k ≤ 3`. -/
lemma go_attempts (source : List Nat) (oracle : Nat → AttemptOutcome) :
    ∀ rem attempt dst le, ∃ k, k ≤ rem ∧
      (singleStreamGo source oracle rem attempt dst le).2.2
        = List.range' attempt k := by
  intro rem
  induction rem with
  | zero => intro attempt dst le; exact ⟨0, le_rfl, rfl⟩
  | succ n ih =>
    intro attempt dst le
    cases ho : oracle attempt with
    | success =>
      exact ⟨1, by omega, by
        rw [go_succ source oracle n attempt dst le ho]
        simp [range'_cons]⟩
    | openFail e =>
      obtain ⟨dst', hd⟩ := go_fail source oracle n attempt dst le e
        (by rw [ho]; rfl)
      obtain ⟨k, hk, he⟩ := ih (attempt + 1) dst' (some e)
      exact ⟨k + 1, by omega, by rw [hd]; simp [he, range'_cons]⟩
    | createFail e =>
      obtain ⟨dst', hd⟩ := go_fail source oracle n attempt dst le e
        (by rw [ho]; rfl)
      obtain ⟨k, hk, he⟩ := ih (attempt + 1) dst' (some e)
      exact ⟨k + 1, by omega, by rw [hd]; simp [he, range'_cons]⟩
    | copyFail e w =>
      obtain ⟨dst', hd⟩ := go_fail source oracle n attempt dst le e
        (by rw [ho]; rfl)
      obtain ⟨k, hk, he⟩ := ih (attempt + 1) dst' (some e)
      exact ⟨k + 1, by omega, by rw [hd]; simp [he, range'_cons]⟩

lemma uploadMultipart_chunks (size : Nat) (mo : MultipartOracle) :
    (uploadMultipart size mo).2 = [] ∨
    (uploadMultipart size mo).2 = List.range MultipartChunks := by
  unfold uploadMultipart
  cases mo.createErr with
  | some e => left; rfl
  | none =>
    cases h : (List.range MultipartChunks).filterMap mo.chunkErr with
    | nil => right; simp [h]
    | cons a t => right; simp [h]

/-- C1: uploadMultipart's split of a file of size `S ≥ 10 MiB` into 16 byte
ranges: range `i` starts at `i*(S/16)`; every range but the last has length
`S/16`; the last range ends at `S` and absorbs the integer-division
remainder; the 16 lengths sum exactly to `S`; and the half-open ranges are
pairwise disjoint (each range ends at or before any later range starts). -/
theorem multipart_split_correct (S : Nat) (hS : MultipartThreshold ≤ S) :
    (∀ i, i < MultipartChunks → chunkStart S i = i * (S / 16)) ∧
    (∀ i, i < MultipartChunks - 1 → chunkLen S i = S / 16) ∧
    chunkEnd S (MultipartChunks - 1) = S ∧
    ((List.range MultipartChunks).map (chunkLen S)).sum = S ∧
    (∀ i j, i < j → j < MultipartChunks → chunkEnd S i ≤ chunkStart S j) := by
  have hdiv : S / 16 * 16 ≤ S := Nat.div_mul_le_self S 16
  refine ⟨?_, ?_, ?_, ?_, ?_⟩
  · intro i _; rfl
  · intro i hi
    simp only [MultipartChunks] at hi
    simp only [chunkLen, chunkEnd, chunkStart, MultipartChunks]
    rw [if_neg (by omega : ¬ i = 16 - 1)]
    omega
  · simp [chunkEnd]
  · have hrange : List.range MultipartChunks = [0,1,2,3,4,5,6,7,8,9,10,11,12,13,14,15] := by
      rfl
    rw [hrange]
    simp only [List.map_cons, List.map_nil, List.sum_cons, List.sum_nil,
      chunkLen, chunkEnd, chunkStart, MultipartChunks]
    norm_num
    omega
  · intro i j hij hj
    simp only [MultipartChunks] at hj
    simp only [chunkEnd, chunkStart, MultipartChunks]
    rw [if_neg (by omega : ¬ i = 16 - 1)]
    have h1 : (i + 1) * (S / 16) ≤ j * (S / 16) :=
      Nat.mul_le_mul_right _ (by omega)
    have h2 : (i + 1) * (S / 16) = i * (S / 16) + S / 16 := by ring
    omega

/-- Witness for C1 at the threshold size itself, `S = 10 MiB`. -/
theorem multipart_split_correct_witness :
    MultipartThreshold ≤ 10485760 ∧
    ((∀ i, i < MultipartChunks → chunkStart 10485760 i = i * (10485760 / 16)) ∧
     (∀ i, i < MultipartChunks - 1 → chunkLen 10485760 i = 10485760 / 16) ∧
     chunkEnd 10485760 (MultipartChunks - 1) = 10485760 ∧
     ((List.range MultipartChunks).map (chunkLen 10485760)).sum = 10485760 ∧
     (∀ i j, i < j → j < MultipartChunks → chunkEnd 10485760 i ≤ chunkStart 10485760 j)) :=
  ⟨by norm_num [MultipartThreshold],
   multipart_split_correct 10485760 (by norm_num [MultipartThreshold])⟩

/-- C3: for every single-producer sequence of `Add`/`Pop` operations, the
jobs already popped followed by the jobs a full drain (repeated `Pop` until
the `nil` sentinel) returns equal exactly the jobs added, in FIFO order —
no duplication, no loss — and at every point popped-count plus the
remaining `Count` equals added-count. -/
theorem jobQueue_fifo (ops : List QOp) :
    (qrun ops).popped ++ drainPops (qrun ops).queue = (qrun ops).added ∧
    (qrun ops).popped.length + (qrun ops).queue.Count
      = (qrun ops).added.length := by
  have h := qrun_inv ops
  constructor
  · rw [drainPops_eq]; exact h
  · have := congrArg List.length h
    simpa [JobQueue.Count] using this

/-- C2: for both single-stream transfer functions, if the transport fails
attempts 1 and 2 and succeeds on attempt 3, the function returns success
with the destination overwritten from scratch (it holds exactly the source
bytes, whatever earlier attempts left); if all 3 attempts fail, it returns
the last attempt's error, and in both cases exactly attempts 1, 2, 3 are
made — never a 4th. -/
theorem single_stream_retry_correct (source : List Nat)
    (oracle : Nat → AttemptOutcome) (e1 e2 : Nat)
    (h1 : (oracle 1).errOf = some e1) (h2 : (oracle 2).errOf = some e2) :
    (oracle 3 = .success →
       DownloadFileWithProgress source oracle
         = (none, some source, [1, 2, 3]) ∧
       uploadSingleStream source oracle = (none, some source, [1, 2, 3])) ∧
    (∀ e3, (oracle 3).errOf = some e3 →
       (DownloadFileWithProgress source oracle).1 = some e3 ∧
       (DownloadFileWithProgress source oracle).2.2 = [1, 2, 3] ∧
       (uploadSingleStream source oracle).1 = some e3 ∧
       (uploadSingleStream source oracle).2.2 = [1, 2, 3]) := by
  obtain ⟨d1, hd1⟩ := go_fail source oracle 2 1 none none e1 h1
  obtain ⟨d2, hd2⟩ := go_fail source oracle 1 2 d1 (some e1) e2 h2
  constructor
  · intro h3
    have h := go_succ source oracle 0 3 d2 (some e2) h3
    constructor <;>
      simp [DownloadFileWithProgress, uploadSingleStream,
        singleStreamRetry, hd1, hd2, h]
  · intro e3 h3
    obtain ⟨d3, hd3⟩ := go_fail source oracle 0 3 d2 (some e2) e3 h3
    have hz : singleStreamGo source oracle 0 4 d3 (some e3)
        = (some e3, d3, []) := rfl
    refine ⟨?_, ?_, ?_, ?_⟩ <;>
      simp [DownloadFileWithProgress, uploadSingleStream,
        singleStreamRetry, hd1, hd2, hd3, hz]

/-- Witness for C2 at a concrete oracle and source. -/
theorem single_stream_retry_correct_witness :
    (retryWitnessOracle 1).errOf = some 1 ∧
    (retryWitnessOracle 2).errOf = some 2 ∧
    ((retryWitnessOracle 3 = .success →
        DownloadFileWithProgress [7] retryWitnessOracle
          = (none, some [7], [1, 2, 3]) ∧
        uploadSingleStream [7] retryWitnessOracle
          = (none, some [7], [1, 2, 3])) ∧
     (∀ e3, (retryWitnessOracle 3).errOf = some e3 →
        (DownloadFileWithProgress [7] retryWitnessOracle).1 = some e3 ∧
        (DownloadFileWithProgress [7] retryWitnessOracle).2.2 = [1, 2, 3] ∧
        (uploadSingleStream [7] retryWitnessOracle).1 = some e3 ∧
        (uploadSingleStream [7] retryWitnessOracle).2.2 = [1, 2, 3])) :=
  ⟨by decide, by decide,
   single_stream_retry_correct [7] retryWitnessOracle 1 2
     (by decide) (by decide)⟩

/-- C4: UploadFileWithProgress tries the multipart path exactly when the
stat'd size is at least the 10 MiB threshold; any multipart failure makes
the whole job fall back silently to the single-stream path with its own
fresh retry (attempts `1..k`, `k ≤ 3`), with each multipart chunk launched
at most once (never an individual chunk retry); below the threshold the
upload goes directly to the single-stream path. -/
theorem upload_decision_correct (size : Nat) (mo : MultipartOracle)
    (source : List Nat) (oracle : Nat → AttemptOutcome) :
    ((UploadFileWithProgress (.ok size) mo source oracle).2.2.multipartTried
        = decide (MultipartThreshold ≤ size)) ∧
    (∀ e, MultipartThreshold ≤ size → (uploadMultipart size mo).1 = some e →
       UploadFileWithProgress (.ok size) mo source oracle
         = ((uploadSingleStream source oracle).1,
            (uploadSingleStream source oracle).2.1,
            ⟨true, (uploadMultipart size mo).2,
             (uploadSingleStream source oracle).2.2⟩) ∧
       (∃ k, k ≤ 3 ∧
          (uploadSingleStream source oracle).2.2 = List.range' 1 k) ∧
       (uploadMultipart size mo).2.Nodup) ∧
    (size < MultipartThreshold →
       UploadFileWithProgress (.ok size) mo source oracle
         = ((uploadSingleStream source oracle).1,
            (uploadSingleStream source oracle).2.1,
            ⟨false, [], (uploadSingleStream source oracle).2.2⟩)) := by
  refine ⟨?_, ?_, ?_⟩
  · by_cases h : MultipartThreshold ≤ size
    · rcases hU : uploadMultipart size mo with ⟨o, c⟩
      cases o <;> simp [UploadFileWithProgress, h, hU]
    · simp [UploadFileWithProgress, h]
  · intro e hle hm
    refine ⟨?_, ?_, ?_⟩
    · rcases hU : uploadMultipart size mo with ⟨o, c⟩
      rw [hU] at hm
      simp only at hm
      simp [UploadFileWithProgress, hle, hU, hm]
    · obtain ⟨k, hk, he⟩ := go_attempts source oracle 3 1 none none
      exact ⟨k, hk, he⟩
    · rcases uploadMultipart_chunks size mo with h | h <;> rw [h]
      · exact List.nodup_nil
      · exact List.nodup_range _
  · intro hlt
    simp [UploadFileWithProgress, Nat.not_le.mpr hlt]

/-- Witness for C4: a 10 MiB upload whose multipart attempt fails on one
sub-worker and falls back to the single-stream path. -/
theorem upload_decision_correct_witness :
    MultipartThreshold ≤ 10485760 ∧
    (uploadMultipart 10485760 uploadWitnessMO).1 = some 99 ∧
    ((UploadFileWithProgress (.ok 10485760) uploadWitnessMO [7]
        uploadWitnessOracle).2.2.multipartTried
      = decide (MultipartThreshold ≤ 10485760)) ∧
    (UploadFileWithProgress (.ok 10485760) uploadWitnessMO [7]
        uploadWitnessOracle
      = ((uploadSingleStream [7] uploadWitnessOracle).1,
         (uploadSingleStream [7] uploadWitnessOracle).2.1,
         ⟨true, (uploadMultipart 10485760 uploadWitnessMO).2,
          (uploadSingleStream [7] uploadWitnessOracle).2.2⟩) ∧
     (∃ k, k ≤ 3 ∧
        (uploadSingleStream [7] uploadWitnessOracle).2.2
          = List.range' 1 k) ∧
     (uploadMultipart 10485760 uploadWitnessMO).2.Nodup) :=
  ⟨by decide, by decide,
   (upload_decision_correct 10485760 uploadWitnessMO [7]
      uploadWitnessOracle).1,
   (upload_decision_correct 10485760 uploadWitnessMO [7]
      uploadWitnessOracle).2.1 99 (by decide) (by decide)⟩

/-- C9: immediately after `Reset(totalFiles, totalBytes)` the monitor state
has TotalFiles and TotalBytes as given, FilesDone = 0, BytesDone = 0, the
"Initializing..." placeholder, running = true, speed 0, and the speed
baseline (last-sample bytes and time) reset to the call's moment; a
`GetStats` sampled at that same moment reports speed 0. -/
theorem monitor_reset_correct (m : TransferMonitor) (tF tB : Int)
    (now : ℚ) :
    (m.Reset tF tB now).totalFiles = tF ∧
    (m.Reset tF tB now).totalBytes = tB ∧
    (m.Reset tF tB now).filesDone = 0 ∧
    (m.Reset tF tB now).bytesDone = 0 ∧
    (m.Reset tF tB now).currentFile = "Initializing..." ∧
    (m.Reset tF tB now).isRunning = true ∧
    (m.Reset tF tB now).currentSpeed = 0 ∧
    (m.Reset tF tB now).lastBytes = 0 ∧
    (m.Reset tF tB now).lastCheck = now ∧
    ((m.Reset tF tB now).GetStats now).1.SpeedMBs = 0 := by
  refine ⟨rfl, rfl, rfl, rfl, rfl, rfl, rfl, rfl, rfl, ?_⟩
  simp [TransferMonitor.GetStats, TransferMonitor.Reset]

/-- C10: GetStats guards the percent division: the returned
ProgressPercent is exactly 0 unless TotalBytes is positive, in which case
it is BytesDone/TotalBytes·100; the snapshot mirrors the counters, and
GetStats never changes any counter, string or flag field (only the speed
baseline). -/
theorem getStats_percent_safe (m : TransferMonitor) (now : ℚ) :
    ((m.GetStats now).1.ProgressPercent
        = if 0 < m.totalBytes
          then ((m.bytesDone : ℚ) / (m.totalBytes : ℚ)) * 100 else 0) ∧
    (m.totalBytes ≤ 0 → (m.GetStats now).1.ProgressPercent = 0) ∧
    ((m.GetStats now).2.totalFiles = m.totalFiles ∧
     (m.GetStats now).2.filesDone = m.filesDone ∧
     (m.GetStats now).2.totalBytes = m.totalBytes ∧
     (m.GetStats now).2.bytesDone = m.bytesDone ∧
     (m.GetStats now).2.currentFile = m.currentFile ∧
     (m.GetStats now).2.isRunning = m.isRunning) ∧
    ((m.GetStats now).1.TotalFiles = m.totalFiles ∧
     (m.GetStats now).1.FilesDone = m.filesDone ∧
     (m.GetStats now).1.TotalBytes = m.totalBytes ∧
     (m.GetStats now).1.BytesDone = m.bytesDone ∧
     (m.GetStats now).1.CurrentFile = m.currentFile ∧
     (m.GetStats now).1.IsRunning = m.isRunning) := by
  unfold TransferMonitor.GetStats
  refine ⟨rfl, ?_, ?_, rfl, rfl, rfl, rfl, rfl, rfl⟩
  · intro h
    simp only
    rw [if_neg (by omega : ¬ (0 : Int) < m.totalBytes)]
  · dsimp only
    split <;> simp

lemma truncEntry_name (d : Nat) (e : RemoteEntry) :
    (truncEntry d e).name = e.name := by
  rcases e with ⟨nm, dir, r, cs⟩; rfl

lemma truncEntries_succ (d : Nat) (es : List RemoteEntry) :
    truncEntries (d + 1) es = es.map (truncEntry d) := by
  induction es with
  | nil => rw [truncEntries]; rfl
  | cons e rest ih =>
    rcases e with ⟨nm, dir, r, cs⟩
    rw [truncEntries, ih]
    rfl

lemma find?_map_truncEntry (d : Nat) (es : List RemoteEntry) (t : String) :
    (es.map (truncEntry d)).find? (fun f => equalFold f.name t)
      = (es.find? (fun f => equalFold f.name t)).map (truncEntry d) := by
  induction es with
  | nil => rfl
  | cons e rest ih =>
    rcases e with ⟨nm, dir, r, cs⟩
    by_cases hp : equalFold nm t = true
    · rw [List.map_cons,
        List.find?_cons_of_pos _ (by simpa [truncEntry, RemoteEntry.name] using hp),
        List.find?_cons_of_pos _ (by simpa [RemoteEntry.name] using hp)]
      rfl
    · rw [List.map_cons,
        List.find?_cons_of_neg _ (by simpa [truncEntry, RemoteEntry.name] using hp),
        List.find?_cons_of_neg _ (by simpa [RemoteEntry.name] using hp)]
      exact ih

lemma searchSubdirs_trunc (d : Nat) (t : String)
    (IH : ∀ rt rd cs, findRemotePath d rt rd (truncEntries (d + 1) cs) t
        = findRemotePath d rt rd cs t) :
    ∀ root es,
      searchSubdirs (fun rt rd cs => findRemotePath d rt rd cs t) root
          (es.map (truncEntry (d + 1)))
        = searchSubdirs (fun rt rd cs => findRemotePath d rt rd cs t)
            root es := by
  intro root es
  induction es with
  | nil => rfl
  | cons e rest ih =>
    rcases e with ⟨nm, dir, r, cs⟩
    simp only [List.map_cons, truncEntry, searchSubdirs]
    rw [IH (pathJoin root nm) r cs]
    cases dir <;> simp [ih]

lemma findRemotePath_trunc (fuel : Nat) :
    ∀ (root : String) (readable : Bool) (entries : List RemoteEntry)
      (t : String),
      findRemotePath fuel root readable (truncEntries (fuel + 1) entries) t
        = findRemotePath fuel root readable entries t := by
  induction fuel with
  | zero =>
    intro root readable entries t
    rw [findRemotePath, findRemotePath, truncEntries_succ,
      find?_map_truncEntry]
    cases hf : entries.find? (fun f => equalFold f.name t) with
    | none => simp
    | some f => simp [truncEntry_name]
  | succ d ih =>
    intro root readable entries t
    rw [findRemotePath, findRemotePath, truncEntries_succ,
      find?_map_truncEntry]
    cases hf : entries.find? (fun f => equalFold f.name t) with
    | some f => simp [truncEntry_name]
    | none =>
      simp only [Option.map_none']
      rw [searchSubdirs_trunc d t (fun rt rd cs => ih rt rd cs t)
        root entries]

lemma searchSubdirs_matches (t : String)
    (recurse : String → Bool → List RemoteEntry → String)
    (IH : ∀ rt rd cs, recurse rt rd cs ≠ "" →
      ∃ pre f, recurse rt rd cs = pathJoin pre f ∧ equalFold f t = true) :
    ∀ root es, searchSubdirs recurse root es ≠ "" →
      ∃ pre f, searchSubdirs recurse root es = pathJoin pre f
        ∧ equalFold f t = true := by
  intro root es
  induction es with
  | nil => intro h; simp [searchSubdirs] at h
  | cons e rest ih =>
    rcases e with ⟨nm, dir, r, cs⟩
    cases dir with
    | false =>
      intro h
      simp only [searchSubdirs, Bool.false_eq_true, if_false] at h ⊢
      exact ih h
    | true =>
      intro h
      by_cases hf : recurse (pathJoin root nm) r cs ≠ ""
      · obtain ⟨pre, f, he, hm⟩ := IH _ _ _ hf
        refine ⟨pre, f, ?_, hm⟩
        have hf' : pathJoin pre f ≠ "" := he ▸ hf
        simp [searchSubdirs, he, hf']
      · push_neg at hf
        simp only [searchSubdirs, hf] at h ⊢
        simp at h ⊢
        exact ih h

lemma findRemotePath_matches (fuel : Nat) :
    ∀ (root : String) (readable : Bool) (entries : List RemoteEntry)
      (t : String),
      findRemotePath fuel root readable entries t ≠ "" →
      ∃ pre f, findRemotePath fuel root readable entries t = pathJoin pre f
        ∧ equalFold f t = true := by
  induction fuel with
  | zero =>
    intro root readable entries t h
    rw [findRemotePath] at h ⊢
    by_cases hr : readable = false
    · simp [hr] at h
    · rw [if_neg hr] at h ⊢
      cases hfind : entries.find? (fun f => equalFold f.name t) with
      | none => rw [hfind] at h; simp at h
      | some f =>
        exact ⟨root, f.name, rfl, by simpa using List.find?_some hfind⟩
  | succ d ih =>
    intro root readable entries t h
    rw [findRemotePath] at h ⊢
    by_cases hr : readable = false
    · simp [hr] at h
    · rw [if_neg hr] at h ⊢
      cases hfind : entries.find? (fun f => equalFold f.name t) with
      | some f =>
        exact ⟨root, f.name, rfl, by simpa using List.find?_some hfind⟩
      | none =>
        rw [hfind] at h
        exact searchSubdirs_matches t _ (fun rt rd cs => ih rt rd cs t)
          root entries h

/-- C5: on download, when the direct Lstat of the requested target fails
and the target's name is usable (non-empty, not "."), the engine runs the
bounded deep search (depth budget 3) under the remote working directory
for a case-insensitive match of the target's base name: a miss fails with
"target not found"; a hit is substituted as the download source (and
re-stat'd).  Any hit names an entry whose name matches the base name
case-insensitively, and the search is depth-bounded: its result is
unchanged when the remote tree is truncated at level 4 (= 3 directory
descents below the working directory). -/
theorem download_target_resolution (renv : RemoteEnv)
    (targetPath e : String)
    (hne : targetPath ≠ "") (hnd : targetPath ≠ ".")
    (hstat : renv.lstat targetPath = .error e)
    (hbase : pathBase targetPath ≠ "") :
    (findRemotePathGo "." renv.wdReadable renv.wdEntries
        (pathBase targetPath) 3 = "" →
      resolveRemoteSource renv targetPath = .error "target not found") ∧
    (findRemotePathGo "." renv.wdReadable renv.wdEntries
        (pathBase targetPath) 3 ≠ "" →
      (∀ info, renv.lstat (findRemotePathGo "." renv.wdReadable
          renv.wdEntries (pathBase targetPath) 3) = .ok info →
        resolveRemoteSource renv targetPath
          = .ok (findRemotePathGo "." renv.wdReadable renv.wdEntries
              (pathBase targetPath) 3, info)) ∧
      (∃ pre f, findRemotePathGo "." renv.wdReadable renv.wdEntries
            (pathBase targetPath) 3 = pathJoin pre f
        ∧ equalFold f (pathBase targetPath) = true)) ∧
    findRemotePathGo "." renv.wdReadable renv.wdEntries
        (pathBase targetPath) 3
      = findRemotePathGo "." renv.wdReadable
          (truncEntries 4 renv.wdEntries) (pathBase targetPath) 3 := by
  have hgo : ∀ es, findRemotePathGo "." renv.wdReadable es
      (pathBase targetPath) 3
      = findRemotePath 3 "." renv.wdReadable es (pathBase targetPath) := by
    intro es
    rw [findRemotePathGo, if_neg (by norm_num)]
    rfl
  refine ⟨?_, ?_, ?_⟩
  · intro hnone
    simp [resolveRemoteSource, hne, hnd, hstat, hbase, hnone]
  · intro hsne
    constructor
    · intro info hinfo
      simp [resolveRemoteSource, hne, hnd, hstat, hbase, hsne, hinfo]
    · rw [hgo] at hsne ⊢
      exact findRemotePath_matches 3 "." renv.wdReadable renv.wdEntries
        (pathBase targetPath) hsne
  · rw [hgo, hgo]
    exact (findRemotePath_trunc 3 "." renv.wdReadable renv.wdEntries
      (pathBase targetPath)).symm

/-- Witness for C5: downloading "data" finds "sub/Data" by deep search. -/
theorem download_target_resolution_witness :
    ("data" : String) ≠ "" ∧ ("data" : String) ≠ "." ∧
    searchWitnessEnv.lstat "data" = .error "nf" ∧
    pathBase "data" ≠ "" ∧
    ((findRemotePathGo "." searchWitnessEnv.wdReadable
        searchWitnessEnv.wdEntries (pathBase "data") 3 = "" →
       resolveRemoteSource searchWitnessEnv "data"
         = .error "target not found") ∧
     (findRemotePathGo "." searchWitnessEnv.wdReadable
        searchWitnessEnv.wdEntries (pathBase "data") 3 ≠ "" →
       (∀ info, searchWitnessEnv.lstat (findRemotePathGo "."
           searchWitnessEnv.wdReadable searchWitnessEnv.wdEntries
           (pathBase "data") 3) = .ok info →
         resolveRemoteSource searchWitnessEnv "data"
           = .ok (findRemotePathGo "." searchWitnessEnv.wdReadable
               searchWitnessEnv.wdEntries (pathBase "data") 3, info)) ∧
       (∃ pre f, findRemotePathGo "." searchWitnessEnv.wdReadable
             searchWitnessEnv.wdEntries (pathBase "data") 3
           = pathJoin pre f
         ∧ equalFold f (pathBase "data") = true)) ∧
     findRemotePathGo "." searchWitnessEnv.wdReadable
         searchWitnessEnv.wdEntries (pathBase "data") 3
       = findRemotePathGo "." searchWitnessEnv.wdReadable
           (truncEntries 4 searchWitnessEnv.wdEntries)
           (pathBase "data") 3) :=
  ⟨by decide, by decide, rfl, by decide,
   download_target_resolution searchWitnessEnv "data" "nf"
     (by decide) (by decide) rfl (by decide)⟩

/-- C6: StartTransfer called with zero sessions, or with a first session
whose SFTP client is not initialized, returns the "no_active_sessions"
error immediately and leaves the state untouched — the job queue and the
monitor are unchanged, no directory is created, no job is enqueued and no
pool is launched, whatever the operation and environment. -/
theorem zero_sessions_error (operation sourcePath destPath : String)
    (env : EngineEnv) (st : EngineState) (rest : List SftpSession) :
    StartTransfer [] operation sourcePath destPath env st
      = (.error "no_active_sessions", st) ∧
    StartTransfer (⟨false⟩ :: rest) operation sourcePath destPath env st
      = (.error "no_active_sessions", st) ∧
    (StartTransfer [] operation sourcePath destPath env st).2.queue
      = st.queue ∧
    (StartTransfer [] operation sourcePath destPath env st).2.monitor
      = st.monitor ∧
    (StartTransfer [] operation sourcePath destPath env st).2.poolLaunched
      = st.poolLaunched := by
  refine ⟨rfl, ?_, rfl, rfl, rfl⟩
  simp [StartTransfer]

lemma sortFolders_sorted (l : List String) :
    (sortFolders l).Pairwise (fun a b : String => a.length ≤ b.length) := by
  unfold sortFolders
  have h := @List.sorted_mergeSort String
      (fun a b : String => a.length ≤ b.length)
      (by intro a b c h1 h2; simp at h1 h2 ⊢; omega)
      (by intro a b; simp; omega) l
  exact h.imp (fun hb => by simpa using hb)

/-- C7: the upload directory plan is sorted by ascending path length —
`sortFolders` returns a by-length-nondecreasing permutation of the plan —
so a direct parent Q of a planned path P (Q being strictly shorter than
P, as their lengths always differ for a direct parent) is placed strictly
before P; only equal-length entries can tie in arbitrary order. -/
theorem dir_plan_parent_first (l : List String) (P Q : String)
    (hQ : Q ∈ l) (hP : P ∈ l) (hpar : isDirectParent Q P) :
    List.Perm (sortFolders l) l ∧
    (sortFolders l).Pairwise (fun a b : String => a.length ≤ b.length) ∧
    Q.length < P.length ∧
    Q ∈ sortFolders l ∧ P ∈ sortFolders l ∧
    (∀ i j : Fin (sortFolders l).length,
      (sortFolders l).get i = Q → (sortFolders l).get j = P →
      (i : Nat) < (j : Nat)) := by
  obtain ⟨n, hn, hslash, hPe⟩ := hpar
  have hone : ("/" : String).length = 1 := rfl
  have hlen : Q.length < P.length := by
    subst hPe
    simp [String.length_append, hone]
    omega
  have hperm : List.Perm (sortFolders l) l := List.mergeSort_perm l _
  have hsorted := sortFolders_sorted l
  refine ⟨hperm, hsorted, hlen, hperm.mem_iff.mpr hQ, hperm.mem_iff.mpr hP,
    ?_⟩
  intro i j hi hj
  by_contra hij
  push_neg at hij
  rcases lt_or_eq_of_le hij with h | h
  · have hrel := List.pairwise_iff_get.mp hsorted j i h
    rw [hi, hj] at hrel
    omega
  · have hji : j = i := Fin.ext h
    rw [hji, hi] at hj
    rw [hj] at hlen
    omega

/-- Witness for C7 on the concrete plan. -/
theorem dir_plan_parent_first_witness :
    "acc" ∈ dirPlanWitness ∧ "acc/meta" ∈ dirPlanWitness ∧
    isDirectParent "acc" "acc/meta" ∧
    (List.Perm (sortFolders dirPlanWitness) dirPlanWitness ∧
     (sortFolders dirPlanWitness).Pairwise
       (fun a b : String => a.length ≤ b.length) ∧
     ("acc" : String).length < ("acc/meta" : String).length ∧
     "acc" ∈ sortFolders dirPlanWitness ∧
     "acc/meta" ∈ sortFolders dirPlanWitness ∧
     (∀ i j : Fin (sortFolders dirPlanWitness).length,
       (sortFolders dirPlanWitness).get i = "acc" →
       (sortFolders dirPlanWitness).get j = "acc/meta" →
       (i : Nat) < (j : Nat))) :=
  ⟨by decide, by decide, ⟨"meta", by decide, by decide, rfl⟩,
   dir_plan_parent_first dirPlanWitness "acc/meta" "acc"
     (by decide) (by decide) ⟨"meta", by decide, by decide, rfl⟩⟩

/-- C8: on upload, a scan that finds zero files makes StartTransfer
return success (nil) without enqueuing any job, without resetting the
monitor and without launching the worker pool; only the remote directory
plan found by the scan has been created (sorted, appended to the created
set). -/
theorem upload_zero_files_noop (s : SftpSession) (rest : List SftpSession)
    (sourcePath destPath : String) (env : EngineEnv) (st : EngineState)
    (entries : List WalkEntry) (absSource : String)
    (hs : s.sftpClientInit = true)
    (habs : env.absResult = .ok absSource)
    (hwalk : env.walkEntries = .ok entries)
    (hnofiles : (scanUpload destPath entries).2.1 = []) :
    StartTransfer (s :: rest) "UPLOAD" sourcePath destPath env st
      = (.ok (), { st with remoteDirsCreated :=
          (st.remoteDirsCreated
            ++ sortFolders (scanUpload destPath entries).1) }) ∧
    (StartTransfer (s :: rest) "UPLOAD" sourcePath destPath env st).2.queue
      = st.queue ∧
    (StartTransfer (s :: rest) "UPLOAD" sourcePath destPath env
        st).2.monitor = st.monitor ∧
    (StartTransfer (s :: rest) "UPLOAD" sourcePath destPath env
        st).2.poolLaunched = st.poolLaunched := by
  rcases hsc : scanUpload destPath entries with ⟨folders, files, total⟩
  rw [hsc] at hnofiles
  simp only at hnofiles
  subst hnofiles
  have hmain : StartTransfer (s :: rest) "UPLOAD" sourcePath destPath env st
      = (.ok (), { st with remoteDirsCreated :=
          (st.remoteDirsCreated ++ sortFolders folders) }) := by
    simp [StartTransfer, hs, habs, hwalk, hsc]
  dsimp only
  rw [hmain]
  exact ⟨rfl, rfl, rfl, rfl⟩

/-- Witness for C8 on concrete inputs. -/
theorem upload_zero_files_noop_witness :
    (⟨true⟩ : SftpSession).sftpClientInit = true ∧
    zeroFilesEnv.absResult = .ok "/src" ∧
    (scanUpload "dest"
      [⟨"/src", true, 0, false, "."⟩,
       ⟨"/src/d", true, 0, false, "src/d"⟩]).2.1 = [] ∧
    (StartTransfer [⟨true⟩] "UPLOAD" "src" "dest" zeroFilesEnv
        zeroFilesState).2.queue = zeroFilesState.queue ∧
    (StartTransfer [⟨true⟩] "UPLOAD" "src" "dest" zeroFilesEnv
        zeroFilesState).2.monitor = zeroFilesState.monitor ∧
    (StartTransfer [⟨true⟩] "UPLOAD" "src" "dest" zeroFilesEnv
        zeroFilesState).2.poolLaunched = zeroFilesState.poolLaunched :=
  ⟨rfl, rfl, by decide,
   (upload_zero_files_noop ⟨true⟩ [] "src" "dest" zeroFilesEnv
      zeroFilesState
      [⟨"/src", true, 0, false, "."⟩, ⟨"/src/d", true, 0, false, "src/d"⟩]
      "/src" rfl rfl rfl (by decide)).2.1,
   (upload_zero_files_noop ⟨true⟩ [] "src" "dest" zeroFilesEnv
      zeroFilesState
      [⟨"/src", true, 0, false, "."⟩, ⟨"/src/d", true, 0, false, "src/d"⟩]
      "/src" rfl rfl rfl (by decide)).2.2.1,
   (upload_zero_files_noop ⟨true⟩ [] "src" "dest" zeroFilesEnv
      zeroFilesState
      [⟨"/src", true, 0, false, "."⟩, ⟨"/src/d", true, 0, false, "src/d"⟩]
      "/src" rfl rfl rfl (by decide)).2.2.2⟩

/-- Witness for C10: with TotalBytes = 0 the reported percent is 0. -/
theorem getStats_percent_safe_witness :
    percentWitnessMonitor.totalBytes ≤ 0 ∧
    (percentWitnessMonitor.GetStats 0).1.ProgressPercent = 0 :=
  ⟨by norm_num [percentWitnessMonitor],
   (getStats_percent_safe percentWitnessMonitor 0).2.1
     (by norm_num [percentWitnessMonitor])⟩

end FileRipper
